import Mathlib

/-
Shallow embedding of the streaming-agent core of the D-engahmed/ancient
repository: src/client/response.py, src/client/llm_client.py,
src/agent/agent.py, src/context/manager.py and src/tools/base.py.

The wire transport and the vendor SDK are external; a streamed request is
modelled as the list of wire chunks that the transport delivers, and an
attempt of the retry loop as the chunks delivered before the attempt either
finishes cleanly or raises one of the classified exceptions.

Python truthiness on optional strings (`if x:` and `x or d`) is modelled by
the helpers pyTruthy and pyOrString below.
-/

namespace Ancient

/-- Python truthiness of an optional string: None and "" are falsy. -/
def pyTruthy : Option String → Bool
  | none => false
  | some s => s ≠ ""

/-- Python `x or d` on an optional string: the default wins when x is falsy. -/
def pyOrString : Option String → String → String
  | none, d => d
  | some s, d => if s = "" then d else s

/-- client/response.py: TextDelta dataclass. -/
structure TextDelta where
  content : String
  role : String
deriving DecidableEq, Repr

/-- client/response.py: StreamEventType. The sources define TEXT_DELTA,
MESSAGE_COMPLETE and ERROR; the three tool-call members are
modelled from the spec (llm_client.py imports them but the response module
in the sources predates tool-call support). -/
inductive StreamEventType where
  | TEXT_DELTA
  | MESSAGE_COMPLETE
  | ERROR
  | TOOL_CALL_START
  | TOOL_CALL_DELTA
  | TOOL_CALL_COMPLETE
deriving DecidableEq, Repr

/-- client/response.py: TokenUsage dataclass; every field defaults to 0. -/
structure TokenUsage where
  prompt_tokens : Nat := 0
  completion_tokens : Nat := 0
  total_tokens : Nat := 0
  cached_tokens : Nat := 0
deriving DecidableEq, Repr

/-- client/response.py: TokenUsage.__add__, element-wise addition. -/
def TokenUsage.add (a b : TokenUsage) : TokenUsage :=
  { prompt_tokens := a.prompt_tokens + b.prompt_tokens,
    completion_tokens := a.completion_tokens + b.completion_tokens,
    total_tokens := a.total_tokens + b.total_tokens,
    cached_tokens := a.cached_tokens + b.cached_tokens }

/-- Modelled from the spec: the result of parse_tool_call_arguments
(imported by llm_client.py but absent from the response module in the
sources). Per the spec the accumulated arguments string is parsed
into a structured value, or yields a decode error scoped to that call. The
structured value is kept abstract as its canonical string form; theorems
quantify over the parse function. -/
inductive ParsedArguments where
  | ok (value : String)
  | decodeError (message : String)
deriving DecidableEq, Repr

/-- Modelled from the spec: fully assembled ToolCallRecord
(callId, name, parsed arguments), as constructed by llm_client.py. -/
structure ToolCall where
  call_id : String
  name : String
  arguments : ParsedArguments
deriving DecidableEq, Repr

/-- Modelled from the spec: progressive tool-call fragment event payload
(ToolCallStarted / ToolCallArgumentsDelta), as constructed by llm_client.py. -/
structure ToolCallDelta where
  call_id : String
  name : Option String := none
  arguments_delta : Option String := none
deriving DecidableEq, Repr

/-- client/response.py: StreamEvent dataclass. The tool_call_delta and
tool_call fields are modelled from the spec (llm_client.py constructs events
with them; the response module in the sources predates tool-call support). -/
structure StreamEvent where
  type : StreamEventType
  text_delta : Option TextDelta := none
  error : Option String := none
  finish_reason : Option String := none
  usage : Option TokenUsage := none
  tool_call_delta : Option ToolCallDelta := none
  tool_call : Option ToolCall := none
deriving DecidableEq, Repr

/-- Wire-level view of chunk.usage.prompt_tokens_details. -/
structure WireUsageDetails where
  cached_tokens : Nat
deriving DecidableEq, Repr

/-- Wire-level view of chunk.usage as read by llm_client.py. The wire
snapshot does carry a completion-token count. -/
structure WireUsage where
  prompt_tokens : Nat
  completion_tokens : Nat
  total_tokens : Nat
  prompt_tokens_details : Option WireUsageDetails
deriving DecidableEq, Repr

/-- Wire-level view of one element of delta.tool_calls: function part. -/
structure WireFragmentFunction where
  name : Option String
  arguments : Option String
deriving DecidableEq, Repr

/-- Wire-level view of one element of delta.tool_calls (a tool-call
fragment tagged with an integer index). -/
structure ToolCallFragment where
  index : Nat
  id : Option String
  function : Option WireFragmentFunction
deriving DecidableEq, Repr

/-- Wire-level view of choice.delta as read by llm_client.py. -/
structure WireDelta where
  content : Option String
  role : Option String
  tool_calls : List ToolCallFragment
deriving DecidableEq, Repr

/-- Wire-level view of one element of chunk.choices. -/
structure WireChoice where
  delta : WireDelta
  finish_reason : Option String
deriving DecidableEq, Repr

/-- One unit of the streamed transport response as read by llm_client.py. -/
structure WireChunk where
  usage : Option WireUsage
  choices : List WireChoice
deriving DecidableEq, Repr

/-- llm_client.py lines 279-285: the TokenUsage value built from a wire
usage snapshot. The constructor call sets prompt_tokens, total_tokens and
cached_tokens only; completion_tokens is left at its dataclass default. -/
def usageOfWireUsage (u : WireUsage) : TokenUsage :=
  { prompt_tokens := u.prompt_tokens,
    total_tokens := u.total_tokens,
    cached_tokens :=
      match u.prompt_tokens_details with
      | some d => d.cached_tokens
      | none => 0 }

/-- Per-index tool-call accumulator entry (the dict value stored in
tool_calls[idx] by _stream_response). -/
structure ToolAcc where
  id : String
  name : String
  arguments : String
deriving DecidableEq, Repr

/-- Mutable state of _stream_response across chunks: last usage snapshot,
last finish reason, and the insertion-ordered per-index accumulator table. -/
structure StreamState where
  usage : Option TokenUsage := none
  finish_reason : Option String := none
  tool_calls : List (Nat × ToolAcc) := []
deriving DecidableEq, Repr

/-- llm_client.py lines 310-342: processing of one element of
delta.tool_calls. Faithful to the source: the body that records the name,
appends the arguments chunk and emits the progressive events is nested
inside the `idx not in tool_calls` test, so a fragment whose index is
already in the table does nothing at all. -/
def processFragment (accs : List (Nat × ToolAcc)) (frag : ToolCallFragment) :
    List (Nat × ToolAcc) × List StreamEvent :=
  let idx := frag.index
  if (accs.find? (fun p => p.1 = idx)).isSome then
    (accs, [])
  else
    let acc0 : ToolAcc := { id := pyOrString frag.id "", name := "", arguments := "" }
    match frag.function with
    | none => (accs ++ [(idx, acc0)], [])
    | some f =>
      let startStep : ToolAcc × List StreamEvent :=
        if pyTruthy f.name then
          ({ acc0 with name := f.name.getD "" },
           [{ type := StreamEventType.TOOL_CALL_START,
              tool_call_delta := some { call_id := acc0.id, name := f.name } }])
        else (acc0, [])
      let acc1 := startStep.1
      let deltaStep : ToolAcc × List StreamEvent :=
        if pyTruthy f.arguments then
          ({ acc1 with arguments := acc1.arguments ++ f.arguments.getD "" },
           [{ type := StreamEventType.TOOL_CALL_DELTA,
              tool_call_delta := some
                { call_id := acc1.id, name := f.name,
                  arguments_delta := f.arguments } }])
        else (acc1, [])
      (accs ++ [(idx, deltaStep.1)], startStep.2 ++ deltaStep.2)

/-- llm_client.py line 310: the for-loop over delta.tool_calls. -/
def processFragments (accs : List (Nat × ToolAcc)) :
    List ToolCallFragment → List (Nat × ToolAcc) × List StreamEvent
  | [] => (accs, [])
  | f :: fs =>
    let step := processFragment accs f
    let rest := processFragments step.1 fs
    (rest.1, step.2 ++ rest.2)

/-- llm_client.py lines 275-342: the per-chunk body of _stream_response.
Usage is recorded before the choices check; a chunk with no choices only
records usage; finish reason, text delta and tool-call fragments are taken
from the first choice. -/
def processChunk (st : StreamState) (chunk : WireChunk) :
    StreamState × List StreamEvent :=
  let st :=
    match chunk.usage with
    | some u => { st with usage := some (usageOfWireUsage u) }
    | none => st
  match chunk.choices with
  | [] => (st, [])
  | choice :: _ =>
    let delta := choice.delta
    let st :=
      if pyTruthy choice.finish_reason then
        { st with finish_reason := choice.finish_reason }
      else st
    let textEvents : List StreamEvent :=
      if pyTruthy delta.content then
        [{ type := StreamEventType.TEXT_DELTA,
           text_delta := some
             { content := delta.content.getD "",
               role := pyOrString delta.role "assistant" } }]
      else []
    let toolStep := processFragments st.tool_calls delta.tool_calls
    ({ st with tool_calls := toolStep.1 }, textEvents ++ toolStep.2)

/-- llm_client.py line 275: the async-for over the chunk stream. -/
def streamChunks (st : StreamState) : List WireChunk → StreamState × List StreamEvent
  | [] => (st, [])
  | c :: cs =>
    let step := processChunk st c
    let rest := streamChunks step.1 cs
    (rest.1, step.2 ++ rest.2)

/-- llm_client.py lines 345-354: finalization loop emitting one
TOOL_CALL_COMPLETE per accumulator entry, in table order. -/
def finalizeToolCalls (parse : String → ParsedArguments)
    (accs : List (Nat × ToolAcc)) : List StreamEvent :=
  accs.map (fun p =>
    { type := StreamEventType.TOOL_CALL_COMPLETE,
      tool_call := some
        { call_id := p.2.id, name := p.2.name, arguments := parse p.2.arguments } })

/-- llm_client.py _stream_response (lines 269-361): per-chunk events, then
tool-call finalization, then the single terminal MESSAGE_COMPLETE carrying
the recorded finish reason and usage. -/
def stream_response (parse : String → ParsedArguments)
    (chunks : List WireChunk) : List StreamEvent :=
  let final := streamChunks {} chunks
  final.2 ++ finalizeToolCalls parse final.1.tool_calls ++
    [{ type := StreamEventType.MESSAGE_COMPLETE,
       finish_reason := final.1.finish_reason,
       usage := final.1.usage }]

/-- Classified outcome of one attempt of the retry loop, mirroring the
exception classes caught by chat_completion: a clean finish, or one of
RateLimitError, APIConnectionError, APIError, or an unexpected exception,
each carrying its message. -/
inductive AttemptResult where
  | ok
  | rateLimitError (message : String)
  | connectionError (message : String)
  | apiError (message : String)
  | unexpectedError (message : String)
deriving DecidableEq, Repr

/-- One attempt as seen by chat_completion: the wire chunks the transport
delivered before the attempt either finished cleanly (result = ok) or
raised. On a clean finish the full _stream_response output is forwarded;
on an exception only the per-chunk events already yielded were forwarded
(finalization and MESSAGE_COMPLETE never ran). -/
structure Attempt where
  chunks : List WireChunk
  result : AttemptResult
deriving Repr

/-- One observable step of chat_completion: entering an attempt of the
retry loop, an asyncio.sleep of the given number of seconds, or a yielded
StreamEvent. -/
inductive TraceItem where
  | attemptStart (attempt : Nat)
  | sleep (seconds : Nat)
  | event (e : StreamEvent)
deriving DecidableEq, Repr

/-- llm_client.py: the StreamEvent yielded for an unrecoverable failure. -/
def errorEvent (msg : String) : StreamEvent :=
  { type := StreamEventType.ERROR, error := some msg }

/-- Events already yielded by an attempt that raised mid-stream: the
per-chunk events of the chunks delivered so far (finalization and the
terminal MESSAGE_COMPLETE never ran). -/
def attemptEvents (a : Attempt) : List StreamEvent :=
  (streamChunks {} a.chunks).2

/-- llm_client.py chat_completion lines 180-242: the retry loop, from a
given attempt index with the given remaining loop iterations. Rate limits
sleep 2 ^ attempt seconds before retrying while attempt < max_retries and
otherwise yield a terminal error event; connection errors retry with no
sleep; API errors and unexpected exceptions yield a terminal error event
immediately. A clean attempt forwards the full stream and returns. -/
def chat_completion_aux (parse : String → ParsedArguments) (max_retries : Nat)
    (attempts : Nat → Attempt) : Nat → Nat → List TraceItem
  | 0, _ => []
  | fuel + 1, attempt =>
    let a := attempts attempt
    TraceItem.attemptStart attempt ::
      match a.result with
      | AttemptResult.ok =>
        (stream_response parse a.chunks).map TraceItem.event
      | AttemptResult.rateLimitError msg =>
        (attemptEvents a).map TraceItem.event ++
          (if attempt < max_retries then
            TraceItem.sleep (2 ^ attempt) ::
              chat_completion_aux parse max_retries attempts fuel (attempt + 1)
          else
            [TraceItem.event (errorEvent ("Rate limit exceeded after retries: " ++ msg))])
      | AttemptResult.connectionError msg =>
        (attemptEvents a).map TraceItem.event ++
          (if attempt < max_retries then
            chat_completion_aux parse max_retries attempts fuel (attempt + 1)
          else
            [TraceItem.event (errorEvent ("Connection failed after retries: " ++ msg))])
      | AttemptResult.apiError msg =>
        (attemptEvents a).map TraceItem.event ++
          [TraceItem.event (errorEvent ("API error: " ++ msg))]
      | AttemptResult.unexpectedError msg =>
        (attemptEvents a).map TraceItem.event ++
          [TraceItem.event (errorEvent ("Unexpected error  in llm client: " ++ msg))]

/-- llm_client.py chat_completion: for attempt in range(max_retries + 1). -/
def chat_completion (parse : String → ParsedArguments) (max_retries : Nat)
    (attempts : Nat → Attempt) : List TraceItem :=
  chat_completion_aux parse max_retries attempts (max_retries + 1) 0

/-- The StreamEvents of a chat_completion trace, in order. -/
def eventsOf (trace : List TraceItem) : List StreamEvent :=
  trace.filterMap (fun t =>
    match t with
    | TraceItem.event e => some e
    | _ => none)

/-- The sleeps of a chat_completion trace, in order. -/
def sleepsOf (trace : List TraceItem) : List Nat :=
  trace.filterMap (fun t =>
    match t with
    | TraceItem.sleep s => some s
    | _ => none)

/-- The attempt indices entered by a chat_completion trace, in order. -/
def attemptStartsOf (trace : List TraceItem) : List Nat :=
  trace.filterMap (fun t =>
    match t with
    | TraceItem.attemptStart n => some n
    | _ => none)

/-- Modelled from the spec: AgentEventType (agent/event.py is absent from
the sources; variants per the spec data model for AgentEvent). -/
inductive AgentEventType where
  | AGENT_START
  | TEXT_DELTA
  | TEXT_COMPLETE
  | AGENT_ERROR
  | AGENT_END
deriving DecidableEq, Repr

/-- Modelled from the spec: AgentEvent (agent/event.py is absent from the
sources). The data dict is modelled by its fields; agent.py reads
event.data.get("content", "") for TEXT_COMPLETE events. -/
structure AgentEvent where
  type : AgentEventType
  content : Option String := none
  error : Option String := none
  details : Option String := none
deriving DecidableEq, Repr

/-- Modelled from the spec: AgentEvent.agent_start(message). -/
def AgentEvent.agent_start (message : String) : AgentEvent :=
  { type := AgentEventType.AGENT_START, content := some message }

/-- Modelled from the spec: AgentEvent.text_delta(content). -/
def AgentEvent.text_delta (content : String) : AgentEvent :=
  { type := AgentEventType.TEXT_DELTA, content := some content }

/-- Modelled from the spec: AgentEvent.text_complete(fullText). -/
def AgentEvent.text_complete (content : String) : AgentEvent :=
  { type := AgentEventType.TEXT_COMPLETE, content := some content }

/-- Modelled from the spec: AgentEvent.agent_error(error, details). -/
def AgentEvent.agent_error (error : String) (details : Option String) : AgentEvent :=
  { type := AgentEventType.AGENT_ERROR, error := some error, details := details }

/-- Modelled from the spec: AgentEvent.agent_end(finalResponse). -/
def AgentEvent.agent_end (finalResponse : String) : AgentEvent :=
  { type := AgentEventType.AGENT_END, content := some finalResponse }

/-- event.data.get("content", "") as read by Agent.run. -/
def AgentEvent.contentOrEmpty (e : AgentEvent) : String :=
  e.content.getD ""

/-- agent.py _agentic_loop lines 79-111: translate the client StreamEvents
into AgentEvents while accumulating response_text. TEXT_DELTA appends the
delta content and forwards it; MESSAGE_COMPLETE emits TEXT_COMPLETE when
the accumulated text is non-empty and keeps consuming; ERROR emits
AGENT_ERROR with the (Python-or defaulted) message and returns; any other
event type is ignored. -/
def agentic_loop_aux : List StreamEvent → String → List AgentEvent
  | [], _ => []
  | e :: rest, response_text =>
    match e.type with
    | StreamEventType.TEXT_DELTA =>
      match e.text_delta with
      | some td =>
        AgentEvent.text_delta td.content ::
          agentic_loop_aux rest (response_text ++ td.content)
      | none => agentic_loop_aux rest response_text
    | StreamEventType.MESSAGE_COMPLETE =>
      (if response_text ≠ "" then [AgentEvent.text_complete response_text] else []) ++
        agentic_loop_aux rest response_text
    | StreamEventType.ERROR =>
      [AgentEvent.agent_error (pyOrString e.error "Unknown error occurred.") none]
    | _ => agentic_loop_aux rest response_text

/-- agent.py _agentic_loop applied to the client event sequence. -/
def agentic_loop (events : List StreamEvent) : List AgentEvent :=
  agentic_loop_aux events ""

/-- agent.py run lines 44-49: final_response starts empty and is
overwritten by the content of each TEXT_COMPLETE event seen. -/
def captureFinal : List AgentEvent → String → String
  | [], acc => acc
  | e :: rest, acc =>
    captureFinal rest
      (if e.type = AgentEventType.TEXT_COMPLETE then AgentEvent.contentOrEmpty e else acc)

/-- agent.py Agent.run (lines 22-52) over the stream events the client
yields: AGENT_START, then the loop events, then AGENT_END carrying the
captured final response. -/
def run (message : String) (events : List StreamEvent) : List AgentEvent :=
  let loopEvents := agentic_loop events
  AgentEvent.agent_start message ::
    (loopEvents ++ [AgentEvent.agent_end (captureFinal loopEvents "")])

/-- context/manager.py: MessageItem dataclass. The tool_calls payload
dicts are opaque to the manager and modelled as strings. -/
structure MessageItem where
  role : String
  content : String
  token_count : Option Nat := none
  tool_call_id : Option String := none
  tool_calls : List String := []
deriving DecidableEq, Repr

/-- A Python dict produced by MessageItem.to_dict (or the system-prompt
dict literal): a key is present iff its field is some. -/
structure MessageDict where
  role : String
  tool_call_id : Option String := none
  tool_calls : Option (List String) := none
  content : Option String := none
deriving DecidableEq, Repr

/-- context/manager.py MessageItem.to_dict: role always; tool_call_id,
tool_calls and content only when truthy/non-empty. -/
def MessageItem.to_dict (item : MessageItem) : MessageDict :=
  let d : MessageDict := { role := item.role }
  let d := if pyTruthy item.tool_call_id then { d with tool_call_id := item.tool_call_id } else d
  let d := if item.tool_calls ≠ [] then { d with tool_calls := some item.tool_calls } else d
  if item.content ≠ "" then { d with content := some item.content } else d

/-- context/manager.py ContextManager state: the system prompt fixed at
construction and the appended history. -/
structure ContextManager where
  system_prompt : String
  messages : List MessageItem := []
deriving DecidableEq, Repr

/-- ContextManager.__init__. Modelled from the spec: get_system_prompt
(prompts/system.py is absent from the sources) supplies the system prompt
string, which per the spec may or may not be present; init is therefore
parameterized by it. -/
def ContextManager.init (prompt : String) : ContextManager :=
  { system_prompt := prompt, messages := [] }

/-- context/manager.py add_user_message; token counting (utils.text, backed
by the external tiktoken library) is passed in as a function. -/
def ContextManager.add_user_message (count_tokens : String → Nat)
    (m : ContextManager) (content : String) : ContextManager :=
  { m with messages := m.messages ++
      [{ role := "user", content := content, token_count := some (count_tokens content) }] }

/-- context/manager.py add_assistant_message (content or "" is the identity
on the string argument). -/
def ContextManager.add_assistant_message (count_tokens : String → Nat)
    (m : ContextManager) (content : String) : ContextManager :=
  { m with messages := m.messages ++
      [{ role := "assistant", content := content, token_count := some (count_tokens content) }] }

/-- context/manager.py add_tool_result. -/
def ContextManager.add_tool_result (count_tokens : String → Nat)
    (m : ContextManager) (tool_call_id : String) (content : String) : ContextManager :=
  { m with messages := m.messages ++
      [{ role := "tool", content := content, tool_call_id := some tool_call_id,
         token_count := some (count_tokens content) }] }

/-- context/manager.py get_messages lines 64-78. Faithful to the source:
the history loop is nested inside the system-prompt test, so when the
system prompt is falsy the returned list is empty. -/
def ContextManager.get_messages (m : ContextManager) : List MessageDict :=
  if m.system_prompt ≠ "" then
    { role := "system", content := some m.system_prompt } ::
      m.messages.map MessageItem.to_dict
  else []

/-- One history-building operation on the context manager. -/
inductive ContextOp where
  | user (content : String)
  | assistant (content : String)
  | toolResult (tool_call_id : String) (content : String)
deriving DecidableEq, Repr

/-- Apply one history-building operation. -/
def applyOp (count_tokens : String → Nat) (m : ContextManager) : ContextOp → ContextManager
  | ContextOp.user content => ContextManager.add_user_message count_tokens m content
  | ContextOp.assistant content => ContextManager.add_assistant_message count_tokens m content
  | ContextOp.toolResult id content => ContextManager.add_tool_result count_tokens m id content

/-- Apply a sequence of history-building operations in order. -/
def applyOps (count_tokens : String → Nat) (m : ContextManager) :
    List ContextOp → ContextManager
  | [] => m
  | op :: ops => applyOps count_tokens (applyOp count_tokens m op) ops

/-- tools/base.py: ToolResult dataclass; the metadata dict is opaque to
to_model_output and modelled as key/value string pairs. -/
structure ToolResult where
  success : Bool
  output : String
  error : Option String := none
  metadata : List (String × String) := []
  truncated : Bool := false
deriving DecidableEq, Repr

/-- tools/base.py to_model_output lines 52-57: the output on success, an
error-formatted string when the error is truthy, and otherwise the Python
function falls off the end and returns None. -/
def ToolResult.to_model_output (r : ToolResult) : Option String :=
  if r.success then some r.output
  else if pyTruthy r.error then
    some ("Error: " ++ r.error.getD "" ++ "\n\n Output:\n \t " ++ r.output)
  else none

/-- The TEXT_DELTA StreamEvent built by _stream_response for a text
fragment. -/
def mkTextDeltaEvent (td : TextDelta) : StreamEvent :=
  { type := StreamEventType.TEXT_DELTA, text_delta := some td }

/-- The text fragment (if any) that _stream_response extracts from one
chunk: content and defaulted role of the first choice, when truthy. -/
def textDeltasOfChunk (c : WireChunk) : List TextDelta :=
  match c.choices with
  | [] => []
  | choice :: _ =>
    if pyTruthy choice.delta.content then
      [{ content := choice.delta.content.getD "",
         role := pyOrString choice.delta.role "assistant" }]
    else []

/-- A chunk carrying no tool-call fragments (first choice, the only one the
client reads). -/
def chunkToolFree (c : WireChunk) : Bool :=
  match c.choices with
  | [] => true
  | choice :: _ => choice.delta.tool_calls.isEmpty

/-- A chunk sequence containing only text fragments (no tool-call
fragments). -/
abbrev textOnly (chunks : List WireChunk) : Prop :=
  ∀ c ∈ chunks, chunkToolFree c = true

/-- Concatenation of a list of strings, in order. -/
def concatStrings : List String → String
  | [] => ""
  | s :: rest => s ++ concatStrings rest

/-- All text fragments of a chunk sequence, in arrival order. -/
def textDeltas (chunks : List WireChunk) : List TextDelta :=
  (chunks.map textDeltasOfChunk).flatten

/-- Concatenation of the contents of the TEXT_DELTA agent events of an
agent event sequence, in emission order. -/
def agentDeltaConcat (out : List AgentEvent) : String :=
  concatStrings (out.filterMap (fun e =>
    if e.type = AgentEventType.TEXT_DELTA then e.content else none))

/-- The truthy finish reason (if any) carried by one chunk, read from the
first choice as the client does. -/
def chunkFinish (c : WireChunk) : Option String :=
  match c.choices with
  | [] => none
  | choice :: _ =>
    if pyTruthy choice.finish_reason then choice.finish_reason else none

/-- Stated from the spec: the last-seen finish reason of a chunk
sequence. -/
def last_seen_finish_reason : List WireChunk → Option String
  | [] => none
  | c :: cs =>
    match last_seen_finish_reason cs with
    | some f => some f
    | none => chunkFinish c

/-- Stated from the spec: the last usage snapshot observed in a chunk
sequence. -/
def last_observed_usage : List WireChunk → Option WireUsage
  | [] => none
  | c :: cs =>
    match last_observed_usage cs with
    | some u => some u
    | none => c.usage

/-- A concrete parse function for witnesses: every string parses to itself
as its structured value. -/
def idParse : String → ParsedArguments := fun s => ParsedArguments.ok s

/-- A wire chunk carrying one text fragment. -/
def textChunk (s : String) : WireChunk :=
  { usage := none,
    choices := [{ delta := { content := some s, role := none, tool_calls := [] },
                  finish_reason := none }] }

/-- A wire chunk carrying only finish_reason = "stop". -/
def stopChunk : WireChunk :=
  { usage := none,
    choices := [{ delta := { content := none, role := none, tool_calls := [] },
                  finish_reason := some "stop" }] }

/-- A wire chunk carrying one tool-call fragment. -/
def toolChunk (f : ToolCallFragment) : WireChunk :=
  { usage := none,
    choices := [{ delta := { content := none, role := none, tool_calls := [f] },
                  finish_reason := none }] }

/-- Scenario A of the spec: the transport streams "Hi", " there", then a
stop marker. -/
def chunksA : List WireChunk := [textChunk "Hi", textChunk " there", stopChunk]

/-- First fragment of a split tool call at index 0: carries the call id,
the name, and the first arguments chunk. -/
def c1Frag1 : ToolCallFragment :=
  { index := 0, id := some "call1",
    function := some { name := some "lookup", arguments := some "ab" } }

/-- Second fragment of the same tool call at index 0: carries only the
second arguments chunk, as the wire protocol does. -/
def c1Frag2 : ToolCallFragment :=
  { index := 0, id := none,
    function := some { name := none, arguments := some "cd" } }

/-- Chunk sequence delivering the two fragments of one tool call whose
arguments string is split as "ab" then "cd". -/
def c1Chunks : List WireChunk := [toolChunk c1Frag1, toolChunk c1Frag2]

/-- Attempt behaviour where every attempt streams "Hi" and then raises a
non-retryable APIError. -/
def c5Attempts : Nat → Attempt :=
  fun _ => { chunks := [textChunk "Hi"], result := AttemptResult.apiError "boom" }

/-- Attempt behaviour where every attempt raises RateLimitError before
delivering any chunk. -/
def c2Attempts : Nat → Attempt :=
  fun _ => { chunks := [], result := AttemptResult.rateLimitError "rl" }

/-- Attempt behaviour where every attempt raises a non-retryable APIError
before delivering any chunk. -/
def c7Attempts : Nat → Attempt :=
  fun _ => { chunks := [], result := AttemptResult.apiError "bad request" }

/-- A chunk whose usage snapshot reports 7 completion tokens on the wire. -/
def c9Chunk : WireChunk :=
  { usage := some { prompt_tokens := 5, completion_tokens := 7, total_tokens := 12,
                    prompt_tokens_details := none },
    choices := [] }

/-- Reachable context-manager state: constructed with an empty (absent)
system prompt, then one user message "hi" appended. -/
def c8Manager : ContextManager :=
  applyOps String.length (ContextManager.init "") [ContextOp.user "hi"]

theorem processFragment_mem (accs : List (Nat × ToolAcc)) (frag : ToolCallFragment) :
    ∀ e ∈ (processFragment accs frag).2,
      (e.type = StreamEventType.TOOL_CALL_START ∨ e.type = StreamEventType.TOOL_CALL_DELTA) ∧
        e.usage = none := by
  intro e he
  unfold processFragment at he
  cases hfind : (List.find? (fun p => decide (p.1 = frag.index)) accs).isSome with
  | true => simp [hfind] at he
  | false =>
    simp only [hfind, Bool.false_eq_true, if_false] at he
    cases hf : frag.function with
    | none => simp [hf] at he
    | some f =>
      simp only [hf] at he
      cases hn : pyTruthy f.name <;> cases ha : pyTruthy f.arguments <;>
        simp [hn, ha] at he
      · rcases he with rfl
        exact ⟨Or.inr rfl, rfl⟩
      · rcases he with rfl
        exact ⟨Or.inl rfl, rfl⟩
      · rcases he with rfl | rfl
        · exact ⟨Or.inl rfl, rfl⟩
        · exact ⟨Or.inr rfl, rfl⟩

theorem processFragments_mem (frags : List ToolCallFragment) :
    ∀ (accs : List (Nat × ToolAcc)), ∀ e ∈ (processFragments accs frags).2,
      (e.type = StreamEventType.TOOL_CALL_START ∨ e.type = StreamEventType.TOOL_CALL_DELTA) ∧
        e.usage = none := by
  induction frags with
  | nil => intro accs e he; simp [processFragments] at he
  | cons f fs ih =>
    intro accs e he
    simp only [processFragments, List.mem_append] at he
    rcases he with he | he
    · exact processFragment_mem accs f e he
    · exact ih _ e he

theorem processChunk_mem (st : StreamState) (chunk : WireChunk) :
    ∀ e ∈ (processChunk st chunk).2,
      (e.type = StreamEventType.TEXT_DELTA ∨ e.type = StreamEventType.TOOL_CALL_START ∨
        e.type = StreamEventType.TOOL_CALL_DELTA) ∧ e.usage = none := by
  intro e he
  unfold processChunk at he
  split at he
  all_goals split at he
  any_goals simp at he
  all_goals
    rcases he with ⟨_, rfl⟩ | he
    · exact ⟨Or.inl rfl, rfl⟩
    · have h := processFragments_mem _ _ e he
      exact ⟨Or.inr h.1, h.2⟩

theorem streamChunks_mem (chunks : List WireChunk) :
    ∀ (st : StreamState), ∀ e ∈ (streamChunks st chunks).2,
      (e.type = StreamEventType.TEXT_DELTA ∨ e.type = StreamEventType.TOOL_CALL_START ∨
        e.type = StreamEventType.TOOL_CALL_DELTA) ∧ e.usage = none := by
  induction chunks with
  | nil => intro st e he; simp [streamChunks] at he
  | cons c cs ih =>
    intro st e he
    simp only [streamChunks, List.mem_append] at he
    rcases he with he | he
    · exact processChunk_mem st c e he
    · exact ih _ e he

theorem finalizeToolCalls_mem (parse : String → ParsedArguments)
    (accs : List (Nat × ToolAcc)) :
    ∀ e ∈ finalizeToolCalls parse accs,
      e.type = StreamEventType.TOOL_CALL_COMPLETE ∧ e.usage = none := by
  intro e he
  simp only [finalizeToolCalls, List.mem_map] at he
  rcases he with ⟨p, _, rfl⟩
  exact ⟨rfl, rfl⟩

theorem pyTruthy_iff (o : Option String) :
    pyTruthy o = true ↔ ∃ s, o = some s ∧ s ≠ "" := by
  cases o <;> simp [pyTruthy]

theorem processChunk_finish (st : StreamState) (c : WireChunk) :
    (processChunk st c).1.finish_reason =
      match chunkFinish c with
      | some f => some f
      | none => st.finish_reason := by
  unfold processChunk chunkFinish
  cases c.usage <;> cases c.choices <;> dsimp only
  all_goals
    rename_i choice tail
    cases hp : pyTruthy choice.finish_reason with
    | false => simp [hp]
    | true =>
      obtain ⟨s, hs, _⟩ := (pyTruthy_iff _).mp hp
      simp [hp, hs]

theorem processChunk_usage (st : StreamState) (c : WireChunk) :
    (processChunk st c).1.usage =
      match c.usage with
      | some u => some (usageOfWireUsage u)
      | none => st.usage := by
  unfold processChunk
  cases c.usage <;> cases c.choices <;> dsimp only
  all_goals
    rename_i choice tail
    cases hp : pyTruthy choice.finish_reason <;> simp [hp]

theorem streamChunks_finish (chunks : List WireChunk) :
    ∀ st : StreamState, (streamChunks st chunks).1.finish_reason =
      match last_seen_finish_reason chunks with
      | some f => some f
      | none => st.finish_reason := by
  induction chunks with
  | nil => intro st; rfl
  | cons c cs ih =>
    intro st
    show (streamChunks (processChunk st c).1 cs).1.finish_reason = _
    rw [ih, processChunk_finish]
    have hdef : last_seen_finish_reason (c :: cs) =
        match last_seen_finish_reason cs with
        | some f => some f
        | none => chunkFinish c := rfl
    rw [hdef]
    cases last_seen_finish_reason cs <;> cases chunkFinish c <;> simp

theorem streamChunks_usage (chunks : List WireChunk) :
    ∀ st : StreamState, (streamChunks st chunks).1.usage =
      match last_observed_usage chunks with
      | some u => some (usageOfWireUsage u)
      | none => st.usage := by
  induction chunks with
  | nil => intro st; rfl
  | cons c cs ih =>
    intro st
    show (streamChunks (processChunk st c).1 cs).1.usage = _
    rw [ih, processChunk_usage]
    have hdef : last_observed_usage (c :: cs) =
        match last_observed_usage cs with
        | some u => some u
        | none => c.usage := rfl
    rw [hdef]
    cases last_observed_usage cs <;> cases c.usage <;> simp

theorem processChunk_toolFree (st : StreamState) (c : WireChunk)
    (h : chunkToolFree c = true) :
    (processChunk st c).1.tool_calls = st.tool_calls ∧
      (processChunk st c).2 = (textDeltasOfChunk c).map mkTextDeltaEvent := by
  unfold chunkToolFree at h
  unfold processChunk textDeltasOfChunk
  cases hc : c.choices with
  | nil =>
    cases c.usage <;> exact ⟨rfl, rfl⟩
  | cons choice tail =>
    rw [hc] at h
    have htc : choice.delta.tool_calls = [] := by
      simpa [List.isEmpty_iff] using h
    cases c.usage <;> dsimp only <;>
      cases hp : pyTruthy choice.finish_reason <;>
        cases hd : pyTruthy choice.delta.content <;>
          simp [hp, hd, htc, processFragments, mkTextDeltaEvent]

theorem streamChunks_textOnly (chunks : List WireChunk) (h : textOnly chunks) :
    ∀ st : StreamState,
      (streamChunks st chunks).2 = (textDeltas chunks).map mkTextDeltaEvent ∧
        (streamChunks st chunks).1.tool_calls = st.tool_calls := by
  induction chunks with
  | nil => intro st; exact ⟨rfl, rfl⟩
  | cons c cs ih =>
    intro st
    have hc : chunkToolFree c = true := h c (List.mem_cons_self c cs)
    have hcs : textOnly cs := fun x hx => h x (List.mem_cons_of_mem c hx)
    have hstep := processChunk_toolFree st c hc
    have hrest := ih hcs (processChunk st c).1
    constructor
    · show (processChunk st c).2 ++ (streamChunks (processChunk st c).1 cs).2 = _
      rw [hstep.2, hrest.1]
      simp [textDeltas]
    · show (streamChunks (processChunk st c).1 cs).1.tool_calls = _
      rw [hrest.2, hstep.1]

theorem stream_response_textOnly (parse : String → ParsedArguments)
    (chunks : List WireChunk) (h : textOnly chunks) :
    stream_response parse chunks =
      (textDeltas chunks).map mkTextDeltaEvent ++
        [{ type := StreamEventType.MESSAGE_COMPLETE,
           finish_reason := (streamChunks {} chunks).1.finish_reason,
           usage := (streamChunks {} chunks).1.usage }] := by
  have hso := streamChunks_textOnly chunks h {}
  unfold stream_response
  dsimp only
  rw [hso.1, hso.2]
  simp [finalizeToolCalls]

theorem concatStrings_append (l m : List String) :
    concatStrings (l ++ m) = concatStrings l ++ concatStrings m := by
  induction l with
  | nil => simp [concatStrings]
  | cons s rest ih => simp [concatStrings, ih, String.append_assoc]

theorem agentic_loop_aux_deltas (ds : List TextDelta) (tail : List StreamEvent) :
    ∀ rt : String,
      agentic_loop_aux (ds.map mkTextDeltaEvent ++ tail) rt =
        ds.map (fun td => AgentEvent.text_delta td.content) ++
          agentic_loop_aux tail (rt ++ concatStrings (ds.map (fun td => td.content))) := by
  induction ds with
  | nil => intro rt; simp [concatStrings]
  | cons d ds ih =>
    intro rt
    simp only [List.map_cons, List.cons_append]
    show AgentEvent.text_delta d.content ::
        agentic_loop_aux (ds.map mkTextDeltaEvent ++ tail) (rt ++ d.content) = _
    rw [ih]
    simp [concatStrings, String.append_assoc]

theorem agentic_loop_aux_types (events : List StreamEvent) :
    ∀ rt : String, ∀ a ∈ agentic_loop_aux events rt,
      a.type = AgentEventType.TEXT_DELTA ∨ a.type = AgentEventType.TEXT_COMPLETE ∨
        a.type = AgentEventType.AGENT_ERROR := by
  induction events with
  | nil => intro rt a ha; simp [agentic_loop_aux] at ha
  | cons e rest ih =>
    intro rt a ha
    unfold agentic_loop_aux at ha
    split at ha
    · split at ha
      · rcases (List.mem_cons).mp ha with rfl | ha
        · exact Or.inl rfl
        · exact ih _ a ha
      · exact ih _ a ha
    · rcases (List.mem_append).mp ha with ha | ha
      · split at ha
        · rcases List.mem_singleton.mp ha with rfl
          exact Or.inr (Or.inl rfl)
        · simp at ha
      · exact ih _ a ha
    · rcases List.mem_singleton.mp ha with rfl
      exact Or.inr (Or.inr rfl)
    · exact ih _ a ha

theorem agentic_loop_aux_no_complete (events : List StreamEvent)
    (h : ∀ e ∈ events, e.type ≠ StreamEventType.MESSAGE_COMPLETE) :
    ∀ rt : String, ∀ a ∈ agentic_loop_aux events rt,
      a.type ≠ AgentEventType.TEXT_COMPLETE := by
  induction events with
  | nil => intro rt a ha; simp [agentic_loop_aux] at ha
  | cons e rest ih =>
    have hrest : ∀ x ∈ rest, x.type ≠ StreamEventType.MESSAGE_COMPLETE :=
      fun x hx => h x (List.mem_cons_of_mem e hx)
    intro rt a ha
    unfold agentic_loop_aux at ha
    split at ha
    · split at ha
      · rcases (List.mem_cons).mp ha with rfl | ha
        · intro hc; exact AgentEventType.noConfusion (hc : AgentEventType.TEXT_DELTA = _)
        · exact ih hrest _ a ha
      · exact ih hrest _ a ha
    · rename_i htype
      exact absurd htype (h e (List.mem_cons_self e rest))
    · rcases List.mem_singleton.mp ha with rfl
      intro hc
      exact AgentEventType.noConfusion (hc : AgentEventType.AGENT_ERROR = _)
    · exact ih hrest _ a ha

theorem captureFinal_stable (l : List AgentEvent)
    (h : ∀ a ∈ l, a.type ≠ AgentEventType.TEXT_COMPLETE) :
    ∀ acc : String, captureFinal l acc = acc := by
  induction l with
  | nil => intro acc; rfl
  | cons a rest ih =>
    intro acc
    have ha : a.type ≠ AgentEventType.TEXT_COMPLETE := h a (List.mem_cons_self a rest)
    have hrest : ∀ x ∈ rest, x.type ≠ AgentEventType.TEXT_COMPLETE :=
      fun x hx => h x (List.mem_cons_of_mem a hx)
    show captureFinal rest (if a.type = AgentEventType.TEXT_COMPLETE then _ else acc) = acc
    rw [if_neg ha]
    exact ih hrest acc

theorem run_getLast (message : String) (events : List StreamEvent) :
    (run message events).getLast? =
      some (AgentEvent.agent_end (captureFinal (agentic_loop events) "")) := by
  unfold run
  show (AgentEvent.agent_start message :: (agentic_loop events ++ [_])).getLast? = _
  rw [show AgentEvent.agent_start message :: (agentic_loop events ++
        [AgentEvent.agent_end (captureFinal (agentic_loop events) "")]) =
      (AgentEvent.agent_start message :: agentic_loop events) ++
        [AgentEvent.agent_end (captureFinal (agentic_loop events) "")] from rfl]
  exact List.getLast?_concat _

theorem attemptEvents_types (a : Attempt) :
    ∀ e ∈ attemptEvents a,
      e.type ≠ StreamEventType.MESSAGE_COMPLETE ∧ e.type ≠ StreamEventType.ERROR := by
  intro e he
  have h := streamChunks_mem _ _ e he
  rcases h.1 with h1 | h1 | h1 <;> rw [h1] <;>
    exact ⟨StreamEventType.noConfusion, StreamEventType.noConfusion⟩

theorem stream_response_no_error (parse : String → ParsedArguments)
    (chunks : List WireChunk) :
    ∀ e ∈ stream_response parse chunks, e.type ≠ StreamEventType.ERROR := by
  intro e he
  unfold stream_response at he
  simp only [List.mem_append, List.mem_singleton] at he
  rcases he with (he | he) | rfl
  · have h := streamChunks_mem _ _ e he
    rcases h.1 with h1 | h1 | h1 <;> rw [h1] <;> exact StreamEventType.noConfusion
  · rw [(finalizeToolCalls_mem parse _ e he).1]
    exact StreamEventType.noConfusion
  · exact StreamEventType.noConfusion

theorem eventsOf_nil : eventsOf [] = [] := rfl

theorem eventsOf_cons_event (e : StreamEvent) (l : List TraceItem) :
    eventsOf (TraceItem.event e :: l) = e :: eventsOf l := rfl

theorem eventsOf_cons_start (n : Nat) (l : List TraceItem) :
    eventsOf (TraceItem.attemptStart n :: l) = eventsOf l := rfl

theorem eventsOf_cons_sleep (s : Nat) (l : List TraceItem) :
    eventsOf (TraceItem.sleep s :: l) = eventsOf l := rfl

theorem eventsOf_append (l m : List TraceItem) :
    eventsOf (l ++ m) = eventsOf l ++ eventsOf m :=
  List.filterMap_append l m _

theorem eventsOf_map_event (l : List StreamEvent) :
    eventsOf (l.map TraceItem.event) = l := by
  induction l with
  | nil => rfl
  | cons e es ih => rw [List.map_cons, eventsOf_cons_event, ih]

theorem eventsOf_singleton_event (e : StreamEvent) :
    eventsOf [TraceItem.event e] = [e] := rfl

theorem chat_error_no_complete (parse : String → ParsedArguments) (mr : Nat)
    (attempts : Nat → Attempt) :
    ∀ fuel attempt : Nat,
      (∃ e ∈ eventsOf (chat_completion_aux parse mr attempts fuel attempt),
        e.type = StreamEventType.ERROR) →
      ∀ e ∈ eventsOf (chat_completion_aux parse mr attempts fuel attempt),
        e.type ≠ StreamEventType.MESSAGE_COMPLETE := by
  intro fuel
  induction fuel with
  | zero => intro attempt h e he; simp [chat_completion_aux, eventsOf] at he
  | succ fuel ih =>
    intro attempt h e he
    simp only [chat_completion_aux] at h he
    rw [eventsOf_cons_start] at h he
    cases hres : (attempts attempt).result with
    | ok =>
      simp only [hres] at h he
      rw [eventsOf_map_event] at h
      obtain ⟨x, hx, hxerr⟩ := h
      exact absurd hxerr (stream_response_no_error parse _ x hx)
    | rateLimitError msg =>
      simp only [hres] at h he
      by_cases hlt : attempt < mr
      · rw [if_pos hlt] at h he
        rw [eventsOf_append, eventsOf_map_event, eventsOf_cons_sleep] at h he
        rcases (List.mem_append).mp he with he1 | he1
        · exact (attemptEvents_types _ e he1).1
        · obtain ⟨x, hx, hxerr⟩ := h
          rcases (List.mem_append).mp hx with hx1 | hx1
          · exact absurd hxerr (attemptEvents_types _ x hx1).2
          · exact ih (attempt + 1) ⟨x, hx1, hxerr⟩ e he1
      · rw [if_neg hlt] at he
        rw [eventsOf_append, eventsOf_map_event, eventsOf_singleton_event] at he
        rcases (List.mem_append).mp he with he1 | he1
        · exact (attemptEvents_types _ e he1).1
        · rcases List.mem_singleton.mp he1 with rfl
          exact StreamEventType.noConfusion
    | connectionError msg =>
      simp only [hres] at h he
      by_cases hlt : attempt < mr
      · rw [if_pos hlt] at h he
        rw [eventsOf_append, eventsOf_map_event] at h he
        rcases (List.mem_append).mp he with he1 | he1
        · exact (attemptEvents_types _ e he1).1
        · obtain ⟨x, hx, hxerr⟩ := h
          rcases (List.mem_append).mp hx with hx1 | hx1
          · exact absurd hxerr (attemptEvents_types _ x hx1).2
          · exact ih (attempt + 1) ⟨x, hx1, hxerr⟩ e he1
      · rw [if_neg hlt] at he
        rw [eventsOf_append, eventsOf_map_event, eventsOf_singleton_event] at he
        rcases (List.mem_append).mp he with he1 | he1
        · exact (attemptEvents_types _ e he1).1
        · rcases List.mem_singleton.mp he1 with rfl
          exact StreamEventType.noConfusion
    | apiError msg =>
      simp only [hres] at he
      rw [eventsOf_append, eventsOf_map_event, eventsOf_singleton_event] at he
      rcases (List.mem_append).mp he with he1 | he1
      · exact (attemptEvents_types _ e he1).1
      · rcases List.mem_singleton.mp he1 with rfl
        exact StreamEventType.noConfusion
    | unexpectedError msg =>
      simp only [hres] at he
      rw [eventsOf_append, eventsOf_map_event, eventsOf_singleton_event] at he
      rcases (List.mem_append).mp he with he1 | he1
      · exact (attemptEvents_types _ e he1).1
      · rcases List.mem_singleton.mp he1 with rfl
        exact StreamEventType.noConfusion

theorem sleepsOf_cons_event (e : StreamEvent) (l : List TraceItem) :
    sleepsOf (TraceItem.event e :: l) = sleepsOf l := rfl

theorem sleepsOf_cons_start (n : Nat) (l : List TraceItem) :
    sleepsOf (TraceItem.attemptStart n :: l) = sleepsOf l := rfl

theorem sleepsOf_cons_sleep (s : Nat) (l : List TraceItem) :
    sleepsOf (TraceItem.sleep s :: l) = s :: sleepsOf l := rfl

theorem sleepsOf_append (l m : List TraceItem) :
    sleepsOf (l ++ m) = sleepsOf l ++ sleepsOf m :=
  List.filterMap_append l m _

theorem sleepsOf_map_event (l : List StreamEvent) :
    sleepsOf (l.map TraceItem.event) = [] := by
  induction l with
  | nil => rfl
  | cons e es ih => rw [List.map_cons, sleepsOf_cons_event, ih]

theorem attemptStartsOf_cons_event (e : StreamEvent) (l : List TraceItem) :
    attemptStartsOf (TraceItem.event e :: l) = attemptStartsOf l := rfl

theorem attemptStartsOf_cons_start (n : Nat) (l : List TraceItem) :
    attemptStartsOf (TraceItem.attemptStart n :: l) = n :: attemptStartsOf l := rfl

theorem attemptStartsOf_map_event (l : List StreamEvent) :
    attemptStartsOf (l.map TraceItem.event) = [] := by
  induction l with
  | nil => rfl
  | cons e es ih => rw [List.map_cons, attemptStartsOf_cons_event, ih]

theorem attemptStartsOf_append (l m : List TraceItem) :
    attemptStartsOf (l ++ m) = attemptStartsOf l ++ attemptStartsOf m :=
  List.filterMap_append l m _

theorem agentDeltaConcat_structure (ds : List TextDelta) (rest : List AgentEvent)
    (hrest : ∀ e ∈ rest, e.type ≠ AgentEventType.TEXT_DELTA) :
    agentDeltaConcat (ds.map (fun td => AgentEvent.text_delta td.content) ++ rest) =
      concatStrings (ds.map (fun td => td.content)) := by
  unfold agentDeltaConcat
  rw [List.filterMap_append]
  have h1 : (ds.map (fun td => AgentEvent.text_delta td.content)).filterMap
      (fun e => if e.type = AgentEventType.TEXT_DELTA then e.content else none) =
      ds.map (fun td => td.content) := by
    rw [List.filterMap_map]
    have hfun : ((fun e => if e.type = AgentEventType.TEXT_DELTA then e.content else none) ∘
        (fun td => AgentEvent.text_delta td.content)) =
        fun td : TextDelta => some td.content := by
      funext td
      simp [AgentEvent.text_delta]
    rw [hfun]
    induction ds with
    | nil => rfl
    | cons d ds ih => rw [List.filterMap_cons, List.map_cons]; exact congrArg _ ih
  have h2 : rest.filterMap
      (fun e => if e.type = AgentEventType.TEXT_DELTA then e.content else none) = [] := by
    refine List.filterMap_eq_nil_iff.mpr ?_
    intro a ha
    simp [hrest a ha]
  rw [h1, h2, List.append_nil]

/-- Claim C4: for every input message and every stream-event sequence the
client may yield (covering success and error outcomes alike), the AgentEvent
sequence produced by Agent.run begins with AgentStart and ends with exactly
one AgentEnd; in particular AgentEnd is emitted even when the loop emitted
an AgentError. -/
theorem c4_run_starts_and_ends (message : String) (events : List StreamEvent) :
    (run message events).head? = some (AgentEvent.agent_start message) ∧
    (∃ final, (run message events).getLast? = some (AgentEvent.agent_end final)) ∧
    (run message events).countP
      (fun a => decide (a.type = AgentEventType.AGENT_END)) = 1 := by
  refine ⟨rfl, ⟨_, run_getLast message events⟩, ?_⟩
  have hz : (agentic_loop events).countP
      (fun a => decide (a.type = AgentEventType.AGENT_END)) = 0 := by
    refine List.countP_eq_zero.mpr ?_
    intro a ha
    rcases agentic_loop_aux_types events "" a ha with h | h | h <;> simp [h]
  unfold run
  dsimp only
  rw [List.countP_cons, List.countP_append, hz]
  simp [AgentEvent.agent_start, AgentEvent.agent_end]

/-- Claim C3: for every chunk sequence containing only text fragments and
no errors, every TextComplete event the agent loop emits carries exactly
the concatenation of the contents of all emitted TextDelta events: no
characters dropped, duplicated or reordered. -/
theorem c3_text_delta_concat (parse : String → ParsedArguments)
    (chunks : List WireChunk) (h : textOnly chunks) :
    ∀ e ∈ agentic_loop (stream_response parse chunks),
      e.type = AgentEventType.TEXT_COMPLETE →
      e.content = some (agentDeltaConcat (agentic_loop (stream_response parse chunks))) := by
  intro e he htc
  have hs := stream_response_textOnly parse chunks h
  rw [hs] at he ⊢
  unfold agentic_loop at he ⊢
  rw [agentic_loop_aux_deltas] at he ⊢
  have hemp : ("" : String) ++
      concatStrings ((textDeltas chunks).map (fun td => td.content)) =
      concatStrings ((textDeltas chunks).map (fun td => td.content)) := by simp
  rw [hemp] at he ⊢
  set s := concatStrings ((textDeltas chunks).map (fun td => td.content)) with hs_def
  by_cases h0 : s = ""
  · have hnil : agentic_loop_aux
        [({ type := StreamEventType.MESSAGE_COMPLETE,
            finish_reason := (streamChunks {} chunks).1.finish_reason,
            usage := (streamChunks {} chunks).1.usage } : StreamEvent)] s = [] := by
      simp [agentic_loop_aux, h0]
    rw [hnil, List.append_nil] at he
    rcases List.mem_map.mp he with ⟨td, _, rfl⟩
    simp [AgentEvent.text_delta] at htc
  · have hone : agentic_loop_aux
        [({ type := StreamEventType.MESSAGE_COMPLETE,
            finish_reason := (streamChunks {} chunks).1.finish_reason,
            usage := (streamChunks {} chunks).1.usage } : StreamEvent)] s =
        [AgentEvent.text_complete s] := by
      simp [agentic_loop_aux, h0]
    rw [hone] at he ⊢
    have hram : ∀ a ∈ [AgentEvent.text_complete s],
        a.type ≠ AgentEventType.TEXT_DELTA := by
      intro a ha
      rcases List.mem_singleton.mp ha with rfl
      simp [AgentEvent.text_complete]
    have hconcat := agentDeltaConcat_structure (textDeltas chunks)
      [AgentEvent.text_complete s] hram
    rw [hconcat, ← hs_def]
    rcases (List.mem_append).mp he with he1 | he1
    · rcases List.mem_map.mp he1 with ⟨td, _, rfl⟩
      simp [AgentEvent.text_delta] at htc
    · rcases List.mem_singleton.mp he1 with rfl
      rfl

/-- Witness for C3 at scenario A of the spec: chunks "Hi", " there",
stop; the TextComplete payload is the concatenation of the TextDelta
contents. -/
theorem c3_text_delta_concat_witness :
    (AgentEvent.text_complete "Hi there").content =
      some (agentDeltaConcat (agentic_loop (stream_response idParse chunksA))) :=
  c3_text_delta_concat idParse chunksA (by decide)
    (AgentEvent.text_complete "Hi there") (by decide) rfl

theorem chat_aux_rl_step (parse : String → ParsedArguments) (mr : Nat)
    (attempts : Nat → Attempt) (fuel attempt : Nat) (msg : String)
    (hres : (attempts attempt).result = AttemptResult.rateLimitError msg)
    (hlt : attempt < mr) :
    chat_completion_aux parse mr attempts (fuel + 1) attempt =
      TraceItem.attemptStart attempt ::
        ((attemptEvents (attempts attempt)).map TraceItem.event ++
          (TraceItem.sleep (2 ^ attempt) ::
            chat_completion_aux parse mr attempts fuel (attempt + 1))) := by
  simp only [chat_completion_aux, hres, if_pos hlt]

theorem chat_aux_rl_last (parse : String → ParsedArguments) (mr : Nat)
    (attempts : Nat → Attempt) (fuel attempt : Nat) (msg : String)
    (hres : (attempts attempt).result = AttemptResult.rateLimitError msg)
    (hnlt : ¬ attempt < mr) :
    chat_completion_aux parse mr attempts (fuel + 1) attempt =
      TraceItem.attemptStart attempt ::
        ((attemptEvents (attempts attempt)).map TraceItem.event ++
          [TraceItem.event (errorEvent ("Rate limit exceeded after retries: " ++ msg))]) := by
  simp only [chat_completion_aux, hres, if_neg hnlt]

theorem chat_aux_api_last (parse : String → ParsedArguments) (mr : Nat)
    (attempts : Nat → Attempt) (fuel attempt : Nat) (msg : String)
    (hres : (attempts attempt).result = AttemptResult.apiError msg) :
    chat_completion_aux parse mr attempts (fuel + 1) attempt =
      TraceItem.attemptStart attempt ::
        ((attemptEvents (attempts attempt)).map TraceItem.event ++
          [TraceItem.event (errorEvent ("API error: " ++ msg))]) := by
  simp only [chat_completion_aux, hres]

/-- Claim C2: with maxRetries = 3, rate-limit failures on attempts 0, 1 and
2 sleep 1s, 2s and 4s respectively before the next attempt (wait(attempt) =
2 ^ attempt), and a rate-limit failure on attempt 3, the last, does not
retry: the loop yields a terminal fatal error event instead. -/
theorem c2_rate_limit_backoff (parse : String → ParsedArguments)
    (attempts : Nat → Attempt) (e0 e1 e2 e3 : String)
    (h0 : (attempts 0).result = AttemptResult.rateLimitError e0)
    (h1 : (attempts 1).result = AttemptResult.rateLimitError e1)
    (h2 : (attempts 2).result = AttemptResult.rateLimitError e2)
    (h3 : (attempts 3).result = AttemptResult.rateLimitError e3) :
    chat_completion parse 3 attempts =
      TraceItem.attemptStart 0 ::
        ((attemptEvents (attempts 0)).map TraceItem.event ++
          (TraceItem.sleep 1 ::
            (TraceItem.attemptStart 1 ::
              ((attemptEvents (attempts 1)).map TraceItem.event ++
                (TraceItem.sleep 2 ::
                  (TraceItem.attemptStart 2 ::
                    ((attemptEvents (attempts 2)).map TraceItem.event ++
                      (TraceItem.sleep 4 ::
                        (TraceItem.attemptStart 3 ::
                          ((attemptEvents (attempts 3)).map TraceItem.event ++
                            [TraceItem.event (errorEvent
                              ("Rate limit exceeded after retries: " ++ e3))])))))))))) ∧
    sleepsOf (chat_completion parse 3 attempts) = [1, 2, 4] := by
  have s0 := chat_aux_rl_step parse 3 attempts 3 0 e0 h0 (by norm_num)
  have s1 := chat_aux_rl_step parse 3 attempts 2 1 e1 h1 (by norm_num)
  have s2 := chat_aux_rl_step parse 3 attempts 1 2 e2 h2 (by norm_num)
  have s3 := chat_aux_rl_last parse 3 attempts 0 3 e3 h3 (by norm_num)
  norm_num at s0 s1 s2 s3
  have key : chat_completion parse 3 attempts =
      TraceItem.attemptStart 0 ::
        ((attemptEvents (attempts 0)).map TraceItem.event ++
          (TraceItem.sleep 1 ::
            (TraceItem.attemptStart 1 ::
              ((attemptEvents (attempts 1)).map TraceItem.event ++
                (TraceItem.sleep 2 ::
                  (TraceItem.attemptStart 2 ::
                    ((attemptEvents (attempts 2)).map TraceItem.event ++
                      (TraceItem.sleep 4 ::
                        (TraceItem.attemptStart 3 ::
                          ((attemptEvents (attempts 3)).map TraceItem.event ++
                            [TraceItem.event (errorEvent
                              ("Rate limit exceeded after retries: " ++ e3))])))))))))) := by
    unfold chat_completion
    norm_num
    rw [s0, s1, s2, s3]
  refine ⟨key, ?_⟩
  rw [key]
  simp only [sleepsOf_cons_start, sleepsOf_cons_sleep, sleepsOf_append, sleepsOf_map_event,
    sleepsOf_cons_event, List.nil_append]
  rfl

/-- Witness for C2: four straight rate-limit failures with message "rl"
produce the trace attempt 0, sleep 1, attempt 1, sleep 2, attempt 2,
sleep 4, attempt 3, fatal error event. -/
theorem c2_rate_limit_backoff_witness :
    chat_completion idParse 3 c2Attempts =
      [TraceItem.attemptStart 0, TraceItem.sleep 1, TraceItem.attemptStart 1,
       TraceItem.sleep 2, TraceItem.attemptStart 2, TraceItem.sleep 4,
       TraceItem.attemptStart 3,
       TraceItem.event (errorEvent "Rate limit exceeded after retries: rl")] ∧
    sleepsOf (chat_completion idParse 3 c2Attempts) = [1, 2, 4] :=
  c2_rate_limit_backoff idParse c2Attempts "rl" "rl" "rl" "rl" rfl rfl rfl rfl

/-- Claim C7: a non-retryable failure (APIError, the RequestRejected class)
on the very first attempt yields exactly one error event and terminates the
request immediately: attempt 0 is the only attempt entered, regardless of
the remaining retry budget. -/
theorem c7_nonretryable_immediate (parse : String → ParsedArguments)
    (max_retries : Nat) (attempts : Nat → Attempt) (msg : String)
    (h0 : (attempts 0).result = AttemptResult.apiError msg) :
    chat_completion parse max_retries attempts =
      TraceItem.attemptStart 0 ::
        ((attemptEvents (attempts 0)).map TraceItem.event ++
          [TraceItem.event (errorEvent ("API error: " ++ msg))]) ∧
    attemptStartsOf (chat_completion parse max_retries attempts) = [0] ∧
    (eventsOf (chat_completion parse max_retries attempts)).countP
      (fun e => decide (e.type = StreamEventType.ERROR)) = 1 := by
  have key : chat_completion parse max_retries attempts =
      TraceItem.attemptStart 0 ::
        ((attemptEvents (attempts 0)).map TraceItem.event ++
          [TraceItem.event (errorEvent ("API error: " ++ msg))]) :=
    chat_aux_api_last parse max_retries attempts max_retries 0 msg h0
  refine ⟨key, ?_, ?_⟩
  · rw [key, attemptStartsOf_cons_start, attemptStartsOf_append, attemptStartsOf_map_event]
    rfl
  · rw [key, eventsOf_cons_start, eventsOf_append, eventsOf_map_event,
      eventsOf_singleton_event, List.countP_append]
    have hz : (attemptEvents (attempts 0)).countP
        (fun e => decide (e.type = StreamEventType.ERROR)) = 0 := by
      refine List.countP_eq_zero.mpr ?_
      intro x hx
      simp [(attemptEvents_types _ x hx).2]
    rw [hz]
    simp [errorEvent]

/-- Witness for C7: an APIError with message "bad request" on attempt 0
gives a one-attempt trace with a single error event. -/
theorem c7_nonretryable_immediate_witness :
    chat_completion idParse 3 c7Attempts =
      [TraceItem.attemptStart 0, TraceItem.event (errorEvent "API error: bad request")] ∧
    attemptStartsOf (chat_completion idParse 3 c7Attempts) = [0] ∧
    (eventsOf (chat_completion idParse 3 c7Attempts)).countP
      (fun e => decide (e.type = StreamEventType.ERROR)) = 1 :=
  c7_nonretryable_immediate idParse 3 c7Attempts "bad request" rfl

/-- Claim C5 (amended): a fatal or retry-exhausted error still terminates
the run with a single terminal AgentEnd, but that AgentEnd carries the
empty string rather than the partial streamed text: Agent.run captures
final text only from TextComplete events, and no TextComplete is ever
emitted on an error path. -/
theorem c5_error_run_ends_empty (parse : String → ParsedArguments)
    (max_retries : Nat) (attempts : Nat → Attempt) (message : String)
    (h : ∃ e ∈ eventsOf (chat_completion parse max_retries attempts),
      e.type = StreamEventType.ERROR) :
    (run message (eventsOf (chat_completion parse max_retries attempts))).getLast? =
      some (AgentEvent.agent_end "") := by
  have hnc := chat_error_no_complete parse max_retries attempts (max_retries + 1) 0 h
  have hcf := captureFinal_stable
    (agentic_loop (eventsOf (chat_completion parse max_retries attempts)))
    (agentic_loop_aux_no_complete _ hnc "") ""
  rw [run_getLast, hcf]

/-- Witness for C5 (amended) at a concrete failing stream: every attempt
streams "Hi" then raises APIError "boom"; the run ends with AgentEnd "". -/
theorem c5_error_run_ends_empty_witness :
    (run "m" (eventsOf (chat_completion idParse 3 c5Attempts))).getLast? =
      some (AgentEvent.agent_end "") :=
  c5_error_run_ends_empty idParse 3 c5Attempts "m" (by decide)

/-- Counterexample to claim C5 as stated: with text "Hi" already streamed
before a fatal APIError, the run emits one AgentError and terminates, but
its AgentEnd carries "" - not the non-empty partial text "Hi" the claim
requires. -/
theorem c5_claim_counterexample :
    agentDeltaConcat (run "m" (eventsOf (chat_completion idParse 3 c5Attempts))) = "Hi" ∧
    (run "m" (eventsOf (chat_completion idParse 3 c5Attempts))).countP
      (fun a => decide (a.type = AgentEventType.AGENT_ERROR)) = 1 ∧
    (run "m" (eventsOf (chat_completion idParse 3 c5Attempts))).getLast? =
      some (AgentEvent.agent_end "") ∧
    ("" : String) ≠ "Hi" := by
  refine ⟨rfl, rfl, rfl, by decide⟩

/-- Claim C6 (amended): on transport exhaustion without error, after the
tool-call finalization events the stream handler emits exactly one terminal
MESSAGE_COMPLETE event carrying the last-seen finish reason and the last
observed usage snapshot; when no usage snapshot was ever observed the
usage field is absent (None), not an empty TokenUsage. -/
theorem c6_terminal_complete (parse : String → ParsedArguments)
    (chunks : List WireChunk) :
    (stream_response parse chunks).getLast? =
      some { type := StreamEventType.MESSAGE_COMPLETE,
             finish_reason := last_seen_finish_reason chunks,
             usage := (last_observed_usage chunks).map usageOfWireUsage } ∧
    (stream_response parse chunks).countP
      (fun e => decide (e.type = StreamEventType.MESSAGE_COMPLETE)) = 1 := by
  have hfin : (streamChunks {} chunks).1.finish_reason = last_seen_finish_reason chunks := by
    rw [streamChunks_finish]
    cases last_seen_finish_reason chunks <;> rfl
  have husage : (streamChunks {} chunks).1.usage =
      (last_observed_usage chunks).map usageOfWireUsage := by
    rw [streamChunks_usage]
    cases last_observed_usage chunks <;> rfl
  constructor
  · unfold stream_response
    dsimp only
    rw [List.getLast?_concat, hfin, husage]
  · unfold stream_response
    dsimp only
    rw [List.countP_append, List.countP_append]
    have hza : ((streamChunks {} chunks).2).countP
        (fun e => decide (e.type = StreamEventType.MESSAGE_COMPLETE)) = 0 := by
      refine List.countP_eq_zero.mpr ?_
      intro x hx
      rcases (streamChunks_mem _ _ x hx).1 with h | h | h <;> simp [h]
    have hzb : (finalizeToolCalls parse (streamChunks {} chunks).1.tool_calls).countP
        (fun e => decide (e.type = StreamEventType.MESSAGE_COMPLETE)) = 0 := by
      refine List.countP_eq_zero.mpr ?_
      intro x hx
      simp [(finalizeToolCalls_mem _ _ x hx).1]
    rw [hza, hzb]
    simp

/-- Counterexample to claim C6 as stated: on an empty chunk stream (no
usage snapshot ever observed) the usage of the terminal event is None, which is
not the empty TokenUsage the claim says it defaults to. -/
theorem c6_claim_counterexample :
    (stream_response idParse []).map (fun e => e.usage) = [none] ∧
    (none : Option TokenUsage) ≠ some ({} : TokenUsage) :=
  ⟨rfl, by decide⟩

/-- Claim C9: every TokenUsage the client constructs from a wire usage
snapshot has completion_tokens = 0, whatever completion-token count the
wire chunk carried, and hence every usage value carried by any emitted
stream event has completion_tokens = 0. -/
theorem c9_completion_tokens_zero :
    (∀ w : WireUsage, (usageOfWireUsage w).completion_tokens = 0) ∧
    (∀ (parse : String → ParsedArguments) (chunks : List WireChunk),
      ∀ e ∈ stream_response parse chunks, ∀ u : TokenUsage,
        e.usage = some u → u.completion_tokens = 0) := by
  constructor
  · intro w; rfl
  · intro parse chunks e he u hu
    unfold stream_response at he
    simp only [List.mem_append, List.mem_singleton] at he
    rcases he with (he | he) | rfl
    · rw [(streamChunks_mem _ _ e he).2] at hu
      exact Option.noConfusion hu
    · rw [(finalizeToolCalls_mem _ _ e he).2] at hu
      exact Option.noConfusion hu
    · have hu2 : (streamChunks {} chunks).1.usage = some u := hu
      rw [streamChunks_usage] at hu2
      cases hlo : last_observed_usage chunks with
      | none =>
        simp only [hlo] at hu2
        exact Option.noConfusion hu2
      | some w =>
        simp only [hlo] at hu2
        injection hu2 with h
        rw [← h]
        rfl

/-- Witness for C9: a chunk whose wire usage reports 7 completion tokens
still yields a TokenUsage with completion_tokens = 0 in the terminal
event. -/
theorem c9_completion_tokens_zero_witness :
    ({ prompt_tokens := 5, completion_tokens := 0, total_tokens := 12,
       cached_tokens := 0 } : TokenUsage).completion_tokens = 0 :=
  c9_completion_tokens_zero.2 idParse [c9Chunk]
    { type := StreamEventType.MESSAGE_COMPLETE,
      usage := some { prompt_tokens := 5, completion_tokens := 0,
                      total_tokens := 12, cached_tokens := 0 } }
    (by decide)
    { prompt_tokens := 5, completion_tokens := 0, total_tokens := 12, cached_tokens := 0 }
    rfl

/-- Claim C1, evaluated at the failing input: two fragments share index 0
with argument chunks "ab" then "cd"; the handler is supposed to concatenate
them and parse "abcd", but the arguments of the finalized record is the parse
of "ab" alone - the second fragment is ignored because the merge body is
nested inside the `idx not in tool_calls` test. -/
theorem c1_arguments_not_concatenated :
    (stream_response idParse c1Chunks).filterMap (fun e => e.tool_call) =
      [{ call_id := "call1", name := "lookup", arguments := ParsedArguments.ok "ab" }] ∧
    idParse ("ab" ++ "cd") = ParsedArguments.ok "abcd" ∧
    ParsedArguments.ok "ab" ≠ ParsedArguments.ok "abcd" := by
  refine ⟨rfl, rfl, by decide⟩

theorem get_messages_with_prompt (m : ContextManager) (h : m.system_prompt ≠ "") :
    ContextManager.get_messages m =
      ({ role := "system", content := some m.system_prompt } : MessageDict) ::
        m.messages.map MessageItem.to_dict := by
  unfold ContextManager.get_messages
  rw [if_pos h]

/-- Claim C8, evaluated at the failing input: a context manager constructed
with an absent (empty) system prompt and one appended user message has a
non-empty history, yet get_messages returns the empty list - the history
loop is nested inside the system-prompt test. -/
theorem c8_history_dropped_without_prompt :
    c8Manager.messages =
      [{ role := "user", content := "hi", token_count := some 2,
         tool_call_id := none, tool_calls := [] }] ∧
    ContextManager.get_messages c8Manager = [] :=
  ⟨rfl, rfl⟩

/-- Claim C10: to_model_output returns the output when success is true, an
error-formatted string when success is false and the error is set, and no
string at all (None) when success is false and the error is None - it is
not total as a string-producing function. -/
theorem c10_to_model_output_cases (r : ToolResult) :
    (r.success = true → r.to_model_output = some r.output) ∧
    (r.success = false → pyTruthy r.error = true →
      r.to_model_output =
        some ("Error: " ++ r.error.getD "" ++ "\n\n Output:\n \t " ++ r.output)) ∧
    (r.success = false → r.error = none → r.to_model_output = none) := by
  unfold ToolResult.to_model_output
  refine ⟨fun h => ?_, fun h1 h2 => ?_, fun h1 h2 => ?_⟩
  · simp [h]
  · simp [h1, h2]
  · simp [h1, h2, pyTruthy]

/-- Witness for C10 at three concrete ToolResult values: success, failure
with an error message, and failure with error = None (where no string is
returned). -/
theorem c10_to_model_output_cases_witness :
    ToolResult.to_model_output { success := true, output := "ok" } = some "ok" ∧
    ToolResult.to_model_output { success := false, output := "out", error := some "bad" } =
      some "Error: bad\n\n Output:\n \t out" ∧
    ToolResult.to_model_output { success := false, output := "out" } = none :=
  ⟨(c10_to_model_output_cases _).1 rfl,
   (c10_to_model_output_cases _).2.1 rfl (by decide),
   (c10_to_model_output_cases _).2.2 rfl rfl⟩

end Ancient
